import Mathlib

/-!
# Verification of the `impass` fail-fast macro crate

Shallow embedding of `src/src/lib.rs`: the `fatal!` procedural macro
(recognizer `FatalBlock::parse` plus the block code generator `fatal`) and the
`fatal_fn` attribute macro (the function-form transformer), together with a
runtime semantics for the generated code.

The host language facilities the crate relies on (the `syn` parsing
primitives, `anyhow` error contexts and `panic!`) are modelled at their
interface boundary: attribute lists and statement lists arrive pre-tokenized,
an `anyhow` error is represented by its rendered message, and process
termination is the `Outcome.panic` constructor, distinct from the
fallible-result (`Except`) mechanism used inside the wrapped block.
-/

set_option autoImplicit false

namespace Impass

/-! ## Runtime values and the statement mini-language

The statements wrapped by `fatal!` are ordinary Rust statements.  The claims
only depend on their evaluation inside the generated closure
`(|| -> Result<_, anyhow::Error> { ... })()`: statements run in order, the `?`
operator short-circuits to the closure boundary with the error, and the
trailing expression is the closure's `Result` value.  We embed a small
statement language with exactly these features.
-/

/-- A runtime value: integers, unit, and `Result` values (`Ok v` / `Err e`,
with the error represented by its rendered message). -/
inductive Val where
  | int  : Int → Val
  | unit : Val
  | okV  : Val → Val
  | errV : String → Val
  deriving DecidableEq, Repr

/-- Variable environments for the wrapped block. -/
def Env : Type := String → Val

/-- Coerce a value to an integer (well-typed programs never hit the default;
in Rust a type mismatch is a compile error). -/
def Val.toInt : Val → Int
  | .int n => n
  | _      => 0

/-- Expressions of the wrapped block: literals, variables, multiplication,
`Ok(e)`, `Err("msg")`, and the `?` operator. -/
inductive Expr where
  | lit  : Int → Expr
  | var  : String → Expr
  | mul  : Expr → Expr → Expr
  | okE  : Expr → Expr
  | errE : String → Expr
  | tryE : Expr → Expr
  deriving DecidableEq, Repr

/-- Expression evaluation.  `Except.error m` is the `?` operator
short-circuiting to the enclosing closure boundary with error `m`. -/
def evalExpr (env : Env) : Expr → Except String Val
  | .lit n   => .ok (.int n)
  | .var x   => .ok (env x)
  | .mul a b => do
      let va ← evalExpr env a
      let vb ← evalExpr env b
      .ok (.int (va.toInt * vb.toInt))
  | .okE e   => do
      let v ← evalExpr env e
      .ok (.okV v)
  | .errE m  => .ok (.errV m)
  | .tryE e  => do
      let v ← evalExpr env e
      match v with
      | .okV w  => .ok w
      | .errV m => .error m
      | w       => .ok w

/-- A statement: a `let` binding or an expression statement (a trailing
expression statement is the block's value). -/
inductive Stmt where
  | letStmt  : String → Expr → Stmt
  | exprStmt : Expr → Stmt
  deriving DecidableEq, Repr

/-- Environment update for `let` bindings. -/
def Env.update (env : Env) (x : String) (v : Val) : Env :=
  fun y => if y = x then v else env y

/-- Evaluate a statement sequence in order; the moment any sub-expression
short-circuits via `?`, the remaining statements are aborted and the failure
propagates.  The value of the sequence is the value of its trailing
expression statement (unit if there is none). -/
def evalStmts (env : Env) : List Stmt → Except String Val
  | [] => .ok .unit
  | [.exprStmt e] => evalExpr env e
  | .letStmt x e :: rest => do
      let v ← evalExpr env e
      evalStmts (env.update x v) rest
  | .exprStmt e :: rest => do
      let _ ← evalExpr env e
      evalStmts env rest

/-- The result of calling the generated closure
`(|| -> Result<_, anyhow::Error> { stmts })()`: either the statements
short-circuit via `?` (closure returns `Err`), or the trailing `Result`
value is the closure's return. -/
def scopeResult (env : Env) (stmts : List Stmt) : Except String Val :=
  match evalStmts env stmts with
  | .error m      => .error m
  | .ok (.okV v)  => .ok v
  | .ok (.errV m) => .error m
  | .ok v         => .ok v

/-! ## The generated expression and its runtime semantics -/

/-- The observable runtime behaviour of evaluating an expression that may
terminate the process: either a value, or process termination (`panic!`)
carrying the diagnostic message.  Termination is a distinct failure class
from the fallible-result (`Except`) mechanism. -/
inductive Outcome (α : Type) where
  | value : α → Outcome α
  | panic : String → Outcome α
  deriving DecidableEq, Repr

/-- `anyhow`'s debug rendering of `e.context(msg)`: the contextual message,
then the underlying error, as printed by `{:?}`. -/
def contextRender (msg e : String) : String :=
  msg ++ "\n\nCaused by:\n    " ++ e

/-- The full panic message `"\n{:?}"` of `e.context(msg)`, where `msg` is the
parsed reason, if any, and otherwise the fixed generic text (source lines
156–168 of `lib.rs`). -/
def diagMessage (reason : Option String) (e : String) : String :=
  "\n" ++ contextRender (reason.getD "An unrecoverable error occurred") e

/-- The syntax-tree output of the block transformer: the generated expression
`closure(stmts)().unwrap_or_else(|e| panic!(diag))` is determined by the
statement list and the optional reason message. -/
structure GeneratedExpression where
  stmts  : List Stmt
  reason : Option String
  deriving DecidableEq, Repr

/-- Runtime semantics of the generated expression: evaluate the isolated
scope; on success the expression's value is the unwrapped success value, on
failure the process terminates with the formatted diagnostic. -/
def evalGenerated (env : Env) (g : GeneratedExpression) : Outcome Val :=
  match scopeResult env g.stmts with
  | .ok v     => .value v
  | .error e  => .panic (diagMessage g.reason e)

/-! ## The recognizer: `FatalBlock::parse` -/

/-- A literal token (`syn::Lit`): the recognizer only distinguishes string
literals from everything else. -/
inductive Lit where
  | str : String → Lit
  | int : Int → Lit
  deriving DecidableEq, Repr

/-- An inner annotation (`syn::Attribute`): a path and the raw argument
tokens, here a list of literal tokens. -/
structure Attribute where
  path   : String
  tokens : List Lit
  deriving DecidableEq, Repr

/-- `attr.parse_args::<syn::LitStr>()`: succeeds exactly when the argument
tokens are a single string literal. -/
def parseArgsLitStr (a : Attribute) : Option String :=
  match a.tokens with
  | [.str s] => some s
  | _        => none

/-- The raw input of one `fatal!` invocation, as seen through the host
parsing primitives: the result of `Attribute::parse_inner` on the leading
position and the result of `Block::parse_within` on the rest (either may be
a syntax error). -/
structure RawInput where
  attribs : Except String (List Attribute)
  body    : Except String (List Stmt)
  deriving Repr

/-- The parsed form of one invocation (the Directive): the statement sequence
and the optional reason message. -/
structure FatalBlock where
  stmts          : List Stmt
  reason_message : Option String
  deriving DecidableEq, Repr

/-- The scanning loop of `FatalBlock::parse` (source lines 184–193): for each
attribute in order whose path is `reason`, a successfully parsed single
string-literal argument overwrites the current reason; a failed parse leaves
it unchanged. -/
def findReason (attribs : List Attribute) : Option String :=
  attribs.foldl
    (fun reason_message attr =>
      if attr.path = "reason" then
        match parseArgsLitStr attr with
        | some value => some value
        | none       => reason_message
      else reason_message)
    none

/-- `FatalBlock::parse` (source lines 181–200): parse the inner annotations,
scan them for the reason, then parse the remaining input as a statement
sequence; a syntax error in either host parse propagates. -/
def FatalBlock.parse (input : RawInput) : Except String FatalBlock := do
  let attribs ← input.attribs
  let reason_message := findReason attribs
  let stmts ← input.body
  pure { stmts := stmts, reason_message := reason_message }

/-- The `fatal!` procedural macro (source lines 140–171): parse the input
into a `FatalBlock` and emit the wrapped expression. -/
def fatal (input : RawInput) : Except String GeneratedExpression := do
  let fb ← FatalBlock.parse input
  pure { stmts := fb.stmts, reason := fb.reason_message }

/-! ## The function-form transformer: `fatal_fn` -/

/-- One attribute-argument item (`syn::NestedMeta`): a `key = literal` pair
(`Meta::NameValue`), a bare path, or a bare literal. -/
inductive NestedMeta where
  | nameValue : String → Lit → NestedMeta
  | path      : String → NestedMeta
  | litArg    : Lit → NestedMeta
  deriving DecidableEq, Repr

/-- The body of the `find_map` closure in `fatal_fn` (source lines 253–262):
an argument yields a reason exactly when it is a name-value pair whose key is
`reason` and whose value is a string literal. -/
def reasonOfArg (arg : NestedMeta) : Option String :=
  match arg with
  | .nameValue key lit =>
      if key = "reason" then
        match lit with
        | .str s => some s
        | _      => none
      else none
  | _ => none

/-- `args.iter().find_map(...)`: the first argument yielding a reason wins;
non-matching arguments are skipped. -/
def extractReasonArg (args : List NestedMeta) : Option String :=
  args.findSome? reasonOfArg

/-- The function declaration consumed by `fatal_fn` (`syn::ItemFn`),
restricted to the parts the transformer reads or could touch: name,
parameter list, declared return type, and the body's statement sequence. -/
structure ItemFn where
  name   : String
  params : List String
  retTy  : String
  block  : List Stmt
  deriving DecidableEq, Repr

/-- The token content of an `impass::fatal! { ... }` invocation emitted by
`fatal_fn`: the inner annotations followed by the original body statements.
Feeding it to the `fatal` macro is modelled by `expandInvocation`. -/
structure FatalInvocation where
  attribs : List Attribute
  body    : List Stmt
  deriving DecidableEq, Repr

/-- The function declaration produced by `fatal_fn`: the same header, with
the body replaced by a single `impass::fatal! { ... }` invocation. -/
structure TransformedFn where
  name   : String
  params : List String
  retTy  : String
  block  : FatalInvocation
  deriving DecidableEq, Repr

/-- The inner-annotation list emitted by the two `quote!` branches of
`fatal_fn` (source lines 268–281): `#![reason(#reason)]` when a reason was
extracted, nothing otherwise. -/
def reasonAttribs : Option String → List Attribute
  | some r => [{ path := "reason", tokens := [.str r] }]
  | none   => []

/-- The `fatal_fn` attribute macro (source lines 246–289): extract the reason
from the argument list, then replace the function's body with the original
statements wrapped in an `impass::fatal!` invocation; name, parameters and
return type are carried over unchanged. -/
def fatal_fn (args : List NestedMeta) (input_fn : ItemFn) : TransformedFn :=
  let reason_message := extractReasonArg args
  { name   := input_fn.name
    params := input_fn.params
    retTy  := input_fn.retTy
    block  := { attribs := reasonAttribs reason_message, body := input_fn.block } }

/-- Later macro expansion of an emitted `impass::fatal! { ... }` invocation:
its tokens are well-formed by construction, so both host parses succeed. -/
def expandInvocation (inv : FatalInvocation) : Except String GeneratedExpression :=
  fatal { attribs := .ok inv.attribs, body := .ok inv.body }

/-- The raw input of the bare form `fatal! { #![reason("R")] stmts }` (or
without the annotation), used to compare the two entry points. -/
def bareInput (reason : Option String) (stmts : List Stmt) : RawInput :=
  { attribs := .ok (reasonAttribs reason), body := .ok stmts }

/-! ## Enclosing fallible-result contexts

To state that termination is not catchable by ordinary error handling, we
model an arbitrary enclosing context built from the fallible-result
mechanism: chained fallible continuations (`and_then`-style) and error
handlers (`or_else`-style).  A panic is not a `Result` value, so it
propagates through every such combinator. -/

/-- An enclosing context of ordinary fallible-result handling around the
generated expression's hole. -/
inductive ResultCtx where
  | hole    : ResultCtx
  | andThen : ResultCtx → (Val → Except String Val) → ResultCtx
  | orElse  : ResultCtx → (String → Except String Val) → ResultCtx

/-- Plug an outcome into a fallible-result context.  Combinators operate on
`Result` values only; process termination never produces a value for them to
inspect, so it propagates. -/
def plugCtx (o : Outcome Val) : ResultCtx → Outcome (Except String Val)
  | .hole => match o with
      | .value v => .value (.ok v)
      | .panic m => .panic m
  | .andThen c f => match plugCtx o c with
      | .panic m            => .panic m
      | .value (.error e)   => .value (.error e)
      | .value (.ok v)      => .value (f v)
  | .orElse c h => match plugCtx o c with
      | .panic m            => .panic m
      | .value (.error e)   => .value (h e)
      | .value (.ok v)      => .value (.ok v)

/-! ## Auxiliary notions used by the claims -/

/-- `sub` occurs (contiguously) inside `s`. -/
def containsStr (s sub : String) : Prop :=
  List.IsInfix sub.data s.data

instance (s sub : String) : Decidable (containsStr s sub) :=
  inferInstanceAs (Decidable (List.IsInfix sub.data s.data))

/-- Modelled from the spec: "the recognizer is specified to take the last
successfully parsed one" — the last reason annotation whose argument parses
as a single string literal, in appearance order. -/
def lastSuccessfullyParsedReason (attribs : List Attribute) : Option String :=
  (attribs.filterMap
    (fun a => if a.path = "reason" then parseArgsLitStr a else none)).getLast?

/-- The test helper `might_fail` from `tests/main.rs`, as an expression of
the mini-language. -/
def might_fail (should_fail : Bool) : Expr :=
  if should_fail then .errE "This operation failed" else .okE (.lit 42)

/-- The statement sequence of `test_fatal_success` in `tests/main.rs`:
`let value = might_fail(false)?; Ok(value)`. -/
def successStmts : List Stmt :=
  [.letStmt "value" (.tryE (might_fail false)), .exprStmt (.okE (.var "value"))]

/-- The statement sequence of `test_fatal_panic` / `test_fatal_reason` in
`tests/main.rs`: `let r = might_fail(true)?; Ok(r)`. -/
def failStmts : List Stmt :=
  [.letStmt "r" (.tryE (might_fail true)), .exprStmt (.okE (.var "r"))]

/-- A concrete starting environment. -/
def env0 : Env := fun _ => Val.unit

/-! ## Helper lemmas -/

/-- Appending one attribute runs the scanning loop one more step. -/
theorem findReason_concat (attribs : List Attribute) (a : Attribute) :
    findReason (attribs ++ [a]) =
      if a.path = "reason" then
        match parseArgsLitStr a with
        | some value => some value
        | none       => findReason attribs
      else findReason attribs := by
  simp [findReason, List.foldl_append]

/-- The scanning loop of the recognizer computes exactly the last
successfully parsed reason annotation, in appearance order. -/
theorem findReason_eq_lastSuccessfullyParsedReason (attribs : List Attribute) :
    findReason attribs = lastSuccessfullyParsedReason attribs := by
  induction attribs using List.reverseRecOn with
  | nil => rfl
  | append_singleton l a ih =>
      rw [findReason_concat]
      unfold lastSuccessfullyParsedReason at ih ⊢
      rw [List.filterMap_append]
      by_cases hp : a.path = "reason"
      · cases hv : parseArgsLitStr a with
        | some v => simp [hp, hv, List.getLast?_concat]
        | none   => simpa [hp, hv] using ih
      · simpa [hp] using ih

/-- An attribute whose argument tokens are not a single string literal fails
the `parse_args::<LitStr>` parse. -/
theorem parseArgsLitStr_eq_none (a : Attribute)
    (h : ∀ s, a.tokens ≠ [Lit.str s]) :
    parseArgsLitStr a = none := by
  unfold parseArgsLitStr
  cases hts : a.tokens with
  | nil => rfl
  | cons hd tl =>
    cases hd with
    | str s =>
      cases tl with
      | nil => exact absurd hts (h s)
      | cons _ _ => rfl
    | int n => cases tl <;> rfl

/-- If every `reason`-named attribute fails the string-literal parse, the
scanning loop finds no reason. -/
theorem findReason_eq_none (attribs : List Attribute)
    (h : ∀ a ∈ attribs, a.path = "reason" → parseArgsLitStr a = none) :
    findReason attribs = none := by
  rw [findReason_eq_lastSuccessfullyParsedReason]
  unfold lastSuccessfullyParsedReason
  have hnil : attribs.filterMap
      (fun a => if a.path = "reason" then parseArgsLitStr a else none) = [] := by
    rw [List.filterMap_eq_nil_iff]
    intro a ha
    by_cases hp : a.path = "reason"
    · simp [hp, h a ha hp]
    · simp [hp]
  rw [hnil]
  rfl

/-- If every `reason`-keyed name-value pair has a non-string value, the
function-form extractor finds no reason. -/
theorem extractReasonArg_eq_none (args : List NestedMeta)
    (h : ∀ lit, NestedMeta.nameValue "reason" lit ∈ args → ∀ s, lit ≠ Lit.str s) :
    extractReasonArg args = none := by
  induction args with
  | nil => rfl
  | cons arg rest ih =>
    have hrest : ∀ lit, NestedMeta.nameValue "reason" lit ∈ rest → ∀ s, lit ≠ Lit.str s :=
      fun lit hmem => h lit (List.mem_cons_of_mem _ hmem)
    have harg : reasonOfArg arg = none := by
      cases arg with
      | nameValue key lit =>
        by_cases hk : key = "reason"
        · subst hk
          cases lit with
          | str s => exact absurd rfl (h (Lit.str s) (List.mem_cons_self _ _) s)
          | int n => rfl
        · simp [reasonOfArg, hk]
      | path p => rfl
      | litArg l => rfl
    simp only [extractReasonArg, List.findSome?_cons, harg]
    exact ih hrest

/-- Process termination propagates through every fallible-result context. -/
theorem plugCtx_panic (c : ResultCtx) (m : String) :
    plugCtx (.panic m) c = .panic m := by
  induction c with
  | hole => rfl
  | andThen c f ih => simp [plugCtx, ih]
  | orElse c h ih => simp [plugCtx, ih]

/-! ## Claims -/

/-- C1: for every statement sequence whose isolated-scope evaluation succeeds
with value `v`, the expression generated by the block transformer (`fatal!`)
evaluates to exactly `v` — identity on the success path. -/
theorem fatal_success_identity (input : RawInput) (g : GeneratedExpression)
    (env : Env) (v : Val)
    (hg : fatal input = .ok g) (hv : scopeResult env g.stmts = .ok v) :
    evalGenerated env g = .value v := by
  simp [evalGenerated, hv]

/-- C1 witness: the `test_fatal_success` scenario — the wrapped block
succeeds with `42` and the generated expression evaluates to exactly `42`. -/
theorem fatal_success_identity_witness :
    evalGenerated env0 { stmts := successStmts, reason := none } = .value (.int 42) :=
  fatal_success_identity { attribs := .ok [], body := .ok successStmts }
    { stmts := successStmts, reason := none } env0 (.int 42) (by rfl) (by rfl)

/-- C2: for every statement sequence whose isolated-scope evaluation fails
with error `e`, the generated expression never returns a value, always
terminates the process, and the diagnostic text contains `e`'s rendered
message. -/
theorem fatal_failure_panics (input : RawInput) (g : GeneratedExpression)
    (env : Env) (e : String)
    (hg : fatal input = .ok g) (he : scopeResult env g.stmts = .error e) :
    (∀ v, evalGenerated env g ≠ .value v)
    ∧ evalGenerated env g = .panic (diagMessage g.reason e)
    ∧ containsStr (diagMessage g.reason e) e := by
  refine ⟨?_, ?_, ?_⟩
  · intro v hcontra
    simp [evalGenerated, he] at hcontra
  · simp [evalGenerated, he]
  · exact ⟨("\n" ++ (g.reason.getD "An unrecoverable error occurred")
        ++ "\n\nCaused by:\n    ").data, [],
      by simp [diagMessage, contextRender, String.data_append]⟩

/-- C2 witness: the `test_fatal_panic` scenario — the wrapped block fails
with `This operation failed`, the generated expression terminates with a
diagnostic containing that message. -/
theorem fatal_failure_panics_witness :
    evalGenerated env0 { stmts := failStmts, reason := none }
        = .panic (diagMessage none "This operation failed")
    ∧ containsStr (diagMessage none "This operation failed") "This operation failed" :=
  (fatal_failure_panics { attribs := .ok [], body := .ok failStmts }
    { stmts := failStmts, reason := none } env0 "This operation failed"
    (by rfl) (by rfl)).2

/-- C7: a failing evaluation of a generated expression is not catchable by
ordinary error handling — plugged into any enclosing context built from the
fallible-result mechanism, the result is still process termination, never a
recovered value. -/
theorem fatal_panic_uncatchable (input : RawInput) (g : GeneratedExpression)
    (env : Env) (e : String)
    (hg : fatal input = .ok g) (he : scopeResult env g.stmts = .error e) :
    ∀ c : ResultCtx,
      plugCtx (evalGenerated env g) c = .panic (diagMessage g.reason e)
      ∧ ∀ r, plugCtx (evalGenerated env g) c ≠ .value r := by
  have hev : evalGenerated env g = .panic (diagMessage g.reason e) := by
    simp [evalGenerated, he]
  intro c
  refine ⟨by rw [hev]; exact plugCtx_panic c _, ?_⟩
  intro r hcontra
  rw [hev, plugCtx_panic] at hcontra
  exact Outcome.noConfusion hcontra

/-- C7 witness: even an enclosing handler that would recover every fallible
error cannot recover the termination of the failing `test_fatal_panic`
scenario. -/
theorem fatal_panic_uncatchable_witness :
    plugCtx (evalGenerated env0 { stmts := failStmts, reason := none })
        (ResultCtx.orElse .hole (fun _ => Except.ok (Val.int 0)))
      = .panic (diagMessage none "This operation failed") :=
  (fatal_panic_uncatchable { attribs := .ok [], body := .ok failStmts }
    { stmts := failStmts, reason := none } env0 "This operation failed"
    (by rfl) (by rfl)
    (ResultCtx.orElse .hole (fun _ => Except.ok (Val.int 0)))).1

/-- C4: on failure, the diagnostic contains the parsed reason `R` when one is
present and the fixed generic text otherwise, and the two diagnostics differ
only in that contextual message; the generated expression terminates with
exactly that diagnostic. -/
theorem fatal_diag_reason_or_generic (input : RawInput) (g : GeneratedExpression)
    (env : Env) (e : String)
    (hg : fatal input = .ok g) (he : scopeResult env g.stmts = .error e) :
    (∀ R, g.reason = some R → containsStr (diagMessage g.reason e) R)
    ∧ (g.reason = none →
        containsStr (diagMessage g.reason e) "An unrecoverable error occurred")
    ∧ (∀ R, ∃ suf, diagMessage (some R) e = "\n" ++ R ++ suf
        ∧ diagMessage none e = "\n" ++ "An unrecoverable error occurred" ++ suf)
    ∧ evalGenerated env g = .panic (diagMessage g.reason e) := by
  refine ⟨?_, ?_, ?_, ?_⟩
  · intro R hR
    exact ⟨"\n".data, ("\n\nCaused by:\n    " ++ e).data,
      by simp [hR, diagMessage, contextRender, String.data_append]⟩
  · intro hR
    exact ⟨"\n".data, ("\n\nCaused by:\n    " ++ e).data,
      by simp [hR, diagMessage, contextRender, String.data_append]⟩
  · intro R
    exact ⟨"\n\nCaused by:\n    " ++ e,
      by simp only [diagMessage, contextRender, Option.getD_some, String.append_assoc],
      by simp only [diagMessage, contextRender, Option.getD_none, String.append_assoc]⟩
  · simp [evalGenerated, he]

/-- C4 witness: the `test_fatal_reason` scenario — the diagnostic of the
failing block annotated with `Failed with a specific error` contains that
reason text. -/
theorem fatal_diag_reason_or_generic_witness :
    containsStr
      (diagMessage (some "Failed with a specific error") "This operation failed")
      "Failed with a specific error" :=
  (fatal_diag_reason_or_generic
    (bareInput (some "Failed with a specific error") failStmts)
    { stmts := failStmts, reason := some "Failed with a specific error" } env0
    "This operation failed" (by rfl) (by rfl)).1 "Failed with a specific error" rfl

/-- C5: the recognizer takes the last successfully parsed `reason` annotation
in appearance order — appending a successfully parsed one overwrites whatever
came before, and an annotation named `reason` whose argument fails to parse
as a single string literal does not overwrite a previously parsed reason. -/
theorem fatal_last_reason_wins (attribs : List Attribute) (stmts : List Stmt)
    (a : Attribute) (s : String)
    (hpath : a.path = "reason") (hfail : parseArgsLitStr a = none) :
    FatalBlock.parse { attribs := .ok attribs, body := .ok stmts }
        = .ok { stmts := stmts, reason_message := lastSuccessfullyParsedReason attribs }
    ∧ findReason (attribs ++ [{ path := "reason", tokens := [Lit.str s] }]) = some s
    ∧ findReason (attribs ++ [a]) = findReason attribs := by
  refine ⟨?_, ?_, ?_⟩
  · rw [show FatalBlock.parse { attribs := .ok attribs, body := .ok stmts }
        = Except.ok { stmts := stmts, reason_message := findReason attribs } from rfl,
      findReason_eq_lastSuccessfullyParsedReason]
  · rw [findReason_concat]
    simp [parseArgsLitStr]
  · rw [findReason_concat]
    simp [hpath, hfail]

/-- C5 witness: with annotations `reason("A")` then `reason("B")` the parsed
reason is `B`, and a following `reason(42)` whose argument fails to parse
does not overwrite it. -/
theorem fatal_last_reason_wins_witness :
    findReason ([{ path := "reason", tokens := [Lit.str "A"] }]
        ++ [{ path := "reason", tokens := [Lit.str "B"] }]) = some "B"
    ∧ findReason ([{ path := "reason", tokens := [Lit.str "A"] },
          { path := "reason", tokens := [Lit.str "B"] }]
        ++ [{ path := "reason", tokens := [Lit.int 42] }])
      = findReason [{ path := "reason", tokens := [Lit.str "A"] },
          { path := "reason", tokens := [Lit.str "B"] }] :=
  ⟨(fatal_last_reason_wins [{ path := "reason", tokens := [Lit.str "A"] }] []
      { path := "reason", tokens := [Lit.int 42] } "B" rfl rfl).2.1,
   (fatal_last_reason_wins [{ path := "reason", tokens := [Lit.str "A"] },
        { path := "reason", tokens := [Lit.str "B"] }] []
      { path := "reason", tokens := [Lit.int 42] } "B" rfl rfl).2.2⟩

/-- C6: a `reason` annotation (bare form) or `reason` argument pair (function
form) whose argument is not a single string literal is silently treated as no
reason — transformation succeeds and proceeds with the generic message — while
a malformed statement sequence surfaces a build-time syntax error. -/
theorem fatal_best_effort_reason (attribs : List Attribute) (stmts : List Stmt)
    (args : List NestedMeta) (f : ItemFn) (e : String)
    (hattr : ∀ a ∈ attribs, a.path = "reason" → ∀ s, a.tokens ≠ [Lit.str s])
    (hargs : ∀ lit, NestedMeta.nameValue "reason" lit ∈ args → ∀ s, lit ≠ Lit.str s) :
    fatal { attribs := .ok attribs, body := .ok stmts }
        = .ok { stmts := stmts, reason := none }
    ∧ extractReasonArg args = none
    ∧ (fatal_fn args f).block.attribs = []
    ∧ fatal { attribs := .ok attribs, body := .error e } = .error e := by
  have hnone : findReason attribs = none :=
    findReason_eq_none attribs
      (fun a ha hp => parseArgsLitStr_eq_none a (hattr a ha hp))
  have hargnone : extractReasonArg args = none := extractReasonArg_eq_none args hargs
  refine ⟨?_, hargnone, ?_, rfl⟩
  · rw [show fatal { attribs := .ok attribs, body := .ok stmts }
        = Except.ok { stmts := stmts, reason := findReason attribs } from rfl, hnone]
  · show reasonAttribs (extractReasonArg args) = []
    rw [hargnone]
    rfl

/-- C6 witness: with the malformed annotation `reason(42)` (bare form) and
the malformed pair `reason = 7` (function form), transformation succeeds with
no reason, and a body that is a syntax error propagates as one. -/
theorem fatal_best_effort_reason_witness :
    fatal { attribs := .ok [{ path := "reason", tokens := [Lit.int 42] }]
            body := .ok failStmts } = .ok { stmts := failStmts, reason := none }
    ∧ extractReasonArg [NestedMeta.nameValue "reason" (Lit.int 7)] = none
    ∧ (fatal_fn [NestedMeta.nameValue "reason" (Lit.int 7)]
        { name := "f", params := [], retTy := "i32", block := failStmts }).block.attribs = []
    ∧ fatal { attribs := .ok [{ path := "reason", tokens := [Lit.int 42] }]
              body := .error "unexpected end of input" } = .error "unexpected end of input" :=
  fatal_best_effort_reason [{ path := "reason", tokens := [Lit.int 42] }] failStmts
    [NestedMeta.nameValue "reason" (Lit.int 7)]
    { name := "f", params := [], retTy := "i32", block := failStmts }
    "unexpected end of input"
    (by
      intro a ha hp s hts
      simp only [List.mem_singleton] at ha
      subst ha
      simp at hts)
    (by
      intro lit hmem s hs
      simp only [List.mem_singleton, NestedMeta.nameValue.injEq, true_and] at hmem
      subst hmem
      exact Lit.noConfusion hs)

/-- C3 counterexample: an argument set containing `reason = "R"` for which
the function-form transformation is NOT observably equivalent to the bare
form with reason `"R"` — an earlier `reason = "A"` pair is the one extracted,
so the two diagnostics differ. -/
theorem fatal_fn_equiv_counterexample :
    (NestedMeta.nameValue "reason" (Lit.str "R")
        ∈ [NestedMeta.nameValue "reason" (Lit.str "A"),
           NestedMeta.nameValue "reason" (Lit.str "R")])
    ∧ (expandInvocation (fatal_fn
          [NestedMeta.nameValue "reason" (Lit.str "A"),
           NestedMeta.nameValue "reason" (Lit.str "R")]
          { name := "f", params := [], retTy := "i32", block := failStmts }).block).map
            (evalGenerated env0)
      ≠ (fatal (bareInput (some "R") failStmts)).map (evalGenerated env0) := by
  refine ⟨by decide, ?_⟩
  intro hcontra
  have hA : (expandInvocation (fatal_fn
        [NestedMeta.nameValue "reason" (Lit.str "A"),
         NestedMeta.nameValue "reason" (Lit.str "R")]
        { name := "f", params := [], retTy := "i32", block := failStmts }).block).map
          (evalGenerated env0)
      = Except.ok (Outcome.panic (diagMessage (some "A") "This operation failed")) := rfl
  have hR : (fatal (bareInput (some "R") failStmts)).map (evalGenerated env0)
      = Except.ok (Outcome.panic (diagMessage (some "R") "This operation failed")) := rfl
  rw [hA, hR] at hcontra
  simp [diagMessage, contextRender] at hcontra

/-- C3 (amended): for every function body and every argument set from which
the function-form transformer extracts reason `R` (the first `reason` pair
with a string-literal value), transforming the function produces observably
identical runtime behaviour to wrapping the body directly in the bare form
annotated with reason `R`. -/
theorem fatal_fn_equiv_extracted_reason (args : List NestedMeta) (f : ItemFn)
    (R : String) (env : Env) (h : extractReasonArg args = some R) :
    (expandInvocation (fatal_fn args f).block).map (evalGenerated env)
      = (fatal (bareInput (some R) f.block)).map (evalGenerated env) := by
  simp only [fatal_fn, expandInvocation, bareInput, h]

/-- C3 witness: with the single argument `reason = "R"` the two entry points
agree on the failing test body. -/
theorem fatal_fn_equiv_extracted_reason_witness :
    (expandInvocation (fatal_fn [NestedMeta.nameValue "reason" (Lit.str "R")]
        { name := "f", params := [], retTy := "i32", block := failStmts }).block).map
          (evalGenerated env0)
      = (fatal (bareInput (some "R") failStmts)).map (evalGenerated env0) :=
  fatal_fn_equiv_extracted_reason [NestedMeta.nameValue "reason" (Lit.str "R")]
    { name := "f", params := [], retTy := "i32", block := failStmts } "R" env0 (by rfl)

/-- C8: the function-form transformer leaves the function's name, parameter
list and declared return type unchanged, and only replaces the body, wrapping
the original statements in an `impass::fatal!` invocation. -/
theorem fatal_fn_preserves_header (args : List NestedMeta) (f : ItemFn) :
    (fatal_fn args f).name = f.name
    ∧ (fatal_fn args f).params = f.params
    ∧ (fatal_fn args f).retTy = f.retTy
    ∧ (fatal_fn args f).block
        = { attribs := reasonAttribs (extractReasonArg args), body := f.block } :=
  ⟨rfl, rfl, rfl, rfl⟩

/-- C8 witness: the header of a concrete transformed function is unchanged. -/
theorem fatal_fn_preserves_header_witness :
    (fatal_fn [NestedMeta.nameValue "reason" (Lit.str "R")]
        { name := "g", params := ["x"], retTy := "i32", block := successStmts }).name = "g"
    ∧ (fatal_fn [NestedMeta.nameValue "reason" (Lit.str "R")]
        { name := "g", params := ["x"], retTy := "i32", block := successStmts }).params = ["x"]
    ∧ (fatal_fn [NestedMeta.nameValue "reason" (Lit.str "R")]
        { name := "g", params := ["x"], retTy := "i32", block := successStmts }).retTy = "i32"
    ∧ (fatal_fn [NestedMeta.nameValue "reason" (Lit.str "R")]
        { name := "g", params := ["x"], retTy := "i32", block := successStmts }).block
      = { attribs := reasonAttribs (extractReasonArg
            [NestedMeta.nameValue "reason" (Lit.str "R")])
          body := successStmts } :=
  fatal_fn_preserves_header [NestedMeta.nameValue "reason" (Lit.str "R")]
    { name := "g", params := ["x"], retTy := "i32", block := successStmts }

/-- C9: the parsed statement sequence appears verbatim and in order in the
generated expression — neither entry point adds, removes, rewrites or
reorders statements. -/
theorem fatal_preserves_statements (input : RawInput) (fb : FatalBlock)
    (args : List NestedMeta) (f : ItemFn) (attribs : List Attribute)
    (stmts : List Stmt)
    (hp : FatalBlock.parse input = .ok fb) :
    fatal input = .ok { stmts := fb.stmts, reason := fb.reason_message }
    ∧ fatal { attribs := .ok attribs, body := .ok stmts }
        = .ok { stmts := stmts, reason := findReason attribs }
    ∧ (fatal_fn args f).block.body = f.block := by
  refine ⟨?_, rfl, rfl⟩
  unfold fatal
  rw [hp]
  rfl

/-- C9 witness: the statements of the failing test block reappear verbatim in
the generated expression of both entry points. -/
theorem fatal_preserves_statements_witness :
    fatal (bareInput (some "R") failStmts)
        = .ok { stmts := failStmts, reason := some "R" }
    ∧ fatal { attribs := .ok [], body := .ok failStmts }
        = .ok { stmts := failStmts, reason := findReason [] }
    ∧ (fatal_fn [] { name := "f", params := [], retTy := "i32", block := failStmts }).block.body
        = failStmts :=
  fatal_preserves_statements (bareInput (some "R") failStmts)
    { stmts := failStmts, reason_message := some "R" } []
    { name := "f", params := [], retTy := "i32", block := failStmts } [] failStmts
    (by rfl)

/-- C10: in the function form, the first argument pair whose key is `reason`
and whose value is a string literal wins, and a `reason` pair with a
non-string value is skipped without blocking later pairs — unlike the bare
form, where the last successfully parsed annotation wins. -/
theorem fatal_fn_first_reason_wins (A : String) (lit : Lit) (rest : List NestedMeta)
    (hlit : ∀ s, lit ≠ Lit.str s) :
    extractReasonArg (NestedMeta.nameValue "reason" (Lit.str A) :: rest) = some A
    ∧ extractReasonArg (NestedMeta.nameValue "reason" lit :: rest)
        = extractReasonArg rest
    ∧ extractReasonArg [NestedMeta.nameValue "reason" (Lit.str "A"),
        NestedMeta.nameValue "reason" (Lit.str "B")] = some "A"
    ∧ findReason [{ path := "reason", tokens := [Lit.str "A"] },
        { path := "reason", tokens := [Lit.str "B"] }] = some "B" := by
  refine ⟨?_, ?_, by decide, by decide⟩
  · simp [extractReasonArg, List.findSome?_cons, reasonOfArg]
  · have hnone : reasonOfArg (NestedMeta.nameValue "reason" lit) = none := by
      cases lit with
      | str s => exact absurd rfl (hlit s)
      | int n => rfl
    simp only [extractReasonArg, List.findSome?_cons, hnone]

/-- C10 witness: with pairs `reason = "A"` then `reason = 42` then
`reason = "B"`, the function form extracts `A`, and a leading `reason = 42`
does not block the later `reason = "B"`. -/
theorem fatal_fn_first_reason_wins_witness :
    extractReasonArg (NestedMeta.nameValue "reason" (Lit.str "A")
        :: [NestedMeta.nameValue "reason" (Lit.str "B")]) = some "A"
    ∧ extractReasonArg (NestedMeta.nameValue "reason" (Lit.int 42)
        :: [NestedMeta.nameValue "reason" (Lit.str "B")])
      = extractReasonArg [NestedMeta.nameValue "reason" (Lit.str "B")] :=
  ⟨(fatal_fn_first_reason_wins "A" (Lit.int 42)
      [NestedMeta.nameValue "reason" (Lit.str "B")]
      (fun s h => Lit.noConfusion h)).1,
   (fatal_fn_first_reason_wins "A" (Lit.int 42)
      [NestedMeta.nameValue "reason" (Lit.str "B")]
      (fun s h => Lit.noConfusion h)).2.1⟩

end Impass
